import Mathlib

/-!
Verification of the analytics-dashboard data pipeline (app.py, data_loader.py).

The Python source is shallowly embedded: pandas DataFrames become lists of
records, pandas Timestamps become either a calendar `Date` (year, month, day)
or an epoch-based `Nat` timestamp (the calendar day is the timestamp divided
by 86400), currency amounts become exact rationals, and every fallible
operation returns an `Option`/`Except` whose `none`/`error` value models the
Python exception that the corresponding operation raises.
-/

namespace Dashboard

/-! ## Calendar kernel (proleptic Gregorian, as used by pandas Timestamps) -/

/-- Calendar date: the (year, month, day) part of a pandas Timestamp
normalized to midnight. -/
structure Date where
  year : Nat
  month : Nat
  day : Nat
deriving DecidableEq, Repr

/-- Gregorian leap-year rule. -/
def isLeap (y : Nat) : Bool :=
  (y % 4 == 0 && y % 100 != 0) || (y % 400 == 0)

/-- Number of days in a month of a given year. -/
def daysInMonth (y m : Nat) : Nat :=
  if m = 2 then (if isLeap y then 29 else 28)
  else if m = 4 ∨ m = 6 ∨ m = 9 ∨ m = 11 then 30
  else 31

/-- Validity of a calendar date (years counted from 1). -/
def Date.Valid (d : Date) : Prop :=
  1 ≤ d.year ∧ 1 ≤ d.month ∧ d.month ≤ 12 ∧ 1 ≤ d.day ∧ d.day ≤ daysInMonth d.year d.month

instance (d : Date) : Decidable d.Valid := by
  unfold Date.Valid; infer_instance

/-- Days in the months strictly before month `m`, in a non-leap year
(month 13 closes the year at 365). -/
def monthDaysBefore : Nat → Nat
  | 0 => 0
  | 1 => 0
  | 2 => 31
  | 3 => 59
  | 4 => 90
  | 5 => 120
  | 6 => 151
  | 7 => 181
  | 8 => 212
  | 9 => 243
  | 10 => 273
  | 11 => 304
  | 12 => 334
  | _ => 365

/-- Extra leap day contributed to day-of-year positions from March onward. -/
def leapAdj (m y : Nat) : Nat :=
  if 3 ≤ m ∧ isLeap y = true then 1 else 0

/-- One-based ordinal of a date within its year. -/
def dayOfYear (d : Date) : Nat :=
  monthDaysBefore d.month + leapAdj d.month d.year + d.day

/-- Number of leap years in the range `[1, y]`. -/
def leapsUpTo (y : Nat) : Nat :=
  y / 4 - y / 100 + y / 400

/-- Linear day number of a date (rata die): day 1 is January 1 of year 1.
Differences of this function are exactly the day counts that pandas
Timestamp subtraction reports. -/
def rataDie (d : Date) : Nat :=
  365 * (d.year - 1) + leapsUpTo (d.year - 1) + dayOfYear d

/-- Chronological (lexicographic) strict order on dates, matching the order
on pandas Timestamps. -/
def dateLt (a b : Date) : Prop :=
  a.year < b.year ∨
    (a.year = b.year ∧ (a.month < b.month ∨ (a.month = b.month ∧ a.day < b.day)))

/-- Chronological (lexicographic) order on dates. -/
def dateLe (a b : Date) : Prop :=
  a.year < b.year ∨
    (a.year = b.year ∧ (a.month < b.month ∨ (a.month = b.month ∧ a.day ≤ b.day)))

instance (a b : Date) : Decidable (dateLt a b) := by
  unfold dateLt; infer_instance

instance (a b : Date) : Decidable (dateLe a b) := by
  unfold dateLe; infer_instance

/-- Successor day of a date. -/
def dateSucc (d : Date) : Date :=
  if d.day < daysInMonth d.year d.month then ⟨d.year, d.month, d.day + 1⟩
  else if d.month < 12 then ⟨d.year, d.month + 1, 1⟩
  else ⟨d.year + 1, 1, 1⟩

/-- Model of `Timestamp.replace(year=y)`: Python validates the day against
the new (year, month) pair and raises `ValueError` (here: `none`) when the
day does not exist in the target year, e.g. February 29 in a non-leap year. -/
def tsReplaceYear (d : Date) (y : Nat) : Option Date :=
  if 1 ≤ d.day ∧ d.day ≤ daysInMonth y d.month then some ⟨y, d.month, d.day⟩ else none

/-! ## Record types of the three collections (after type normalization) -/

/-- Row of the clients DataFrame. -/
structure Client where
  client_id : Int
  name : String
  birthdate : Date
  nationality : String
deriving DecidableEq, Repr

/-- Row of the memberships DataFrame. -/
structure Membership where
  membership_id : Int
  client_id : Int
  tier : String
  status : String
deriving DecidableEq, Repr

/-- Row of the transactions DataFrame. `date` is an epoch-based timestamp in
seconds; its calendar day is `date / 86400`. -/
structure Transaction where
  transaction_id : Int
  client_id : Int
  amount : ℚ
  date : Nat
deriving DecidableEq, Repr

/-! ## Identifier normalization (app.py lines 23-24)

`df['client_id'].astype(str).str.replace(',', '').astype(int)` strips every
comma from the textual identifier and converts the result to an integer;
the conversion raises (here: `none`) unless the stripped text is a valid
integer literal. Strings are embedded as lists of characters. -/

/-- Model of `str.replace(',', '')`: delete every comma. -/
def removeCommas (s : List Char) : List Char :=
  s.filter (fun c => c ≠ ',')

/-- Value of a string of decimal digits, most significant first. -/
def digitsVal (s : List Char) : Nat :=
  s.foldl (fun a c => 10 * a + (c.toNat - 48)) 0

/-- Parse an unsigned decimal numeral; `none` on the empty string or any
non-digit character. -/
def pyParseNat (s : List Char) : Option Nat :=
  if s ≠ [] ∧ s.all Char.isDigit then some (digitsVal s) else none

/-- Model of Python `int(str)` restricted to optionally signed decimal
numerals, as produced by `astype(int)`. -/
def pyParseInt (s : List Char) : Option Int :=
  match s with
  | [] => none
  | c :: rest =>
    if c = '-' then (pyParseNat rest).map (fun n => -(n : Int))
    else (pyParseNat (c :: rest)).map (fun n => (n : Int))

/-- The client-id normalization applied to each of the three DataFrames. -/
def normalizeClientId (s : List Char) : Option Int :=
  pyParseInt (removeCommas s)

/-! ## Client-membership join and retention rate (app.py lines 27, 364-366) -/

/-- Model of `pd.merge(clients, memberships, on='client_id', how='inner')`:
one row per (client, membership) pair agreeing on `client_id`. -/
def merged_data (clients : List Client) (memberships : List Membership) :
    List (Client × Membership) :=
  clients.flatMap (fun c =>
    (memberships.filter (fun m => m.client_id == c.client_id)).map (fun m => (c, m)))

/-- Model of `Series.nunique()`: number of distinct values. -/
def nunique (l : List Int) : Nat :=
  l.dedup.length

/-- Distinct ACTIVE membership ids counted over the inner join
(app.py line 364). -/
def active_memberships (clients : List Client) (memberships : List Membership) : Nat :=
  nunique (((merged_data clients memberships).filter
    (fun p => p.2.status == "ACTIVE")).map (fun p => p.2.membership_id))

/-- Distinct membership ids over the full memberships DataFrame
(app.py line 365). -/
def total_memberships (memberships : List Membership) : Nat :=
  nunique (memberships.map (fun m => m.membership_id))

/-- Retention rate `(active / total) * 100` (app.py line 366); Python's
division raises `ZeroDivisionError` (here: `none`) when the denominator is
zero, and the value is otherwise exact rational arithmetic before the
two-decimal display formatting. -/
def retention_rate (clients : List Client) (memberships : List Membership) : Option ℚ :=
  if total_memberships memberships = 0 then none
  else some (((active_memberships clients memberships : ℚ) /
    (total_memberships memberships : ℚ)) * 100)

/-! ## Geocoding enrichment (app.py lines 32-36, 39) -/

/-- Entry of the pycountry reference table. -/
structure Country where
  alpha_3 : String
deriving DecidableEq, Repr

/-- Model of `get_iso_alpha3`: the fuzzy lookup either raises (error) or
returns a list of matches; the bare `except` catches every exception —
including the indexing error on an empty match list — and yields `None`;
otherwise the result is the alpha-3 code of the first match. -/
def get_iso_alpha3 (search_fuzzy : String → Except String (List Country))
    (country_name : String) : Option String :=
  match search_fuzzy country_name with
  | Except.error _ => none
  | Except.ok [] => none
  | Except.ok (c :: _) => some c.alpha_3

/-- Model of `clients['nationality'].apply(get_iso_alpha3)` (app.py line 39). -/
def country_code_column (search_fuzzy : String → Except String (List Country))
    (clients : List Client) : List (Option String) :=
  clients.map (fun c => get_iso_alpha3 search_fuzzy c.nationality)

/-! ## Age computation and binning (app.py lines 236-244) -/

/-- Model of `(pd.Timestamp.now() - clients['birthdate']).dt.days // 365.25`,
as a function of the client's age in days: floor division by the exact
value 365.25 = 1461/4. -/
def clientAge (ageDays : Int) : ℚ :=
  ((⌊(ageDays : ℚ) / (1461 / 4 : ℚ)⌋ : Int) : ℚ)

/-- Bin edges passed to `pd.cut` (app.py line 238). -/
def ageBins : List ℚ :=
  [0, 18, 25, 35, 45, 55, 65, 100]

/-- Bin labels, which are also the fixed ordered categorical axis used for
display (app.py lines 239, 242-244, 250, 256). -/
def ageLabels : List String :=
  ["0-18", "19-25", "26-35", "36-45", "46-55", "56-65", "65+"]

/-- Model of `pd.cut(age, bins=[0,18,25,35,45,55,65,100], labels=...)` with
the default `right=True, include_lowest=False`: a value is placed in bin `i`
when it lies in the half-open interval (edge i, edge i+1]; values outside
every interval (including the left edge 0 itself) get no bin (pandas NaN). -/
def pdCutAge (a : ℚ) : Option (Fin 7) :=
  if 0 < a ∧ a ≤ 18 then some 0
  else if 18 < a ∧ a ≤ 25 then some 1
  else if 25 < a ∧ a ≤ 35 then some 2
  else if 35 < a ∧ a ≤ 45 then some 3
  else if 45 < a ∧ a ≤ 55 then some 4
  else if 55 < a ∧ a ≤ 65 then some 5
  else if 65 < a ∧ a ≤ 100 then some 6
  else none

/-- Lower (exclusive) edge of each bin. -/
def binLo : Fin 7 → ℚ
  | 0 => 0
  | 1 => 18
  | 2 => 25
  | 3 => 35
  | 4 => 45
  | 5 => 55
  | 6 => 65

/-- Upper (inclusive) edge of each bin. -/
def binHi : Fin 7 → ℚ
  | 0 => 18
  | 1 => 25
  | 2 => 35
  | 3 => 45
  | 4 => 55
  | 5 => 65
  | 6 => 100

/-! ## Data loader (data_loader.py lines 6-37)

The external world of `load_data_from_mongodb` is abstracted into an
environment: the two configuration variables (with `none` for an unset
variable, and the empty string also counting as missing under Python
truthiness), and the outcome of establishing the connection and of each of
the three collection fetches. The function returns its Python result
(`ValueError` / `ConnectionError` / the three frames) together with a trace
recording whether a connection was opened and whether it was closed. -/

/-- Environment of one loader invocation; `Doc` is the raw document type. -/
structure LoaderEnv (Doc : Type) where
  mongo_uri : Option String
  db_name : Option String
  connect : Except String Unit
  fetch_clients : Except String (List Doc)
  fetch_memberships : Except String (List Doc)
  fetch_transactions : Except String (List Doc)

/-- Exceptions raised by the loader. -/
inductive PyError where
  | valueError : String → PyError
  | connectionError : String → PyError
deriving DecidableEq, Repr

/-- Connection trace of one loader invocation. -/
structure ConnTrace where
  openedConn : Bool
  closedConn : Bool
deriving DecidableEq, Repr

/-- Model of `load_data_from_mongodb`: missing or empty configuration raises
`ValueError` before any connection attempt; any connection or fetch failure
is wrapped into `ConnectionError`; `client.close()` runs only after the
three successful fetches, so the trace records the close only on the normal
path. -/
def load_data_from_mongodb {Doc : Type} (env : LoaderEnv Doc) :
    Except PyError (List Doc × List Doc × List Doc) × ConnTrace :=
  if env.mongo_uri.getD "" = "" ∨ env.db_name.getD "" = "" then
    (Except.error (PyError.valueError
      "MongoDB URI or database name is missing in environment variables."),
     ⟨false, false⟩)
  else
    match env.connect with
    | Except.error e =>
        (Except.error (PyError.connectionError ("Failed to connect to MongoDB: " ++ e)),
         ⟨false, false⟩)
    | Except.ok _ =>
      match env.fetch_clients with
      | Except.error e =>
          (Except.error (PyError.connectionError ("Failed to connect to MongoDB: " ++ e)),
           ⟨true, false⟩)
      | Except.ok cs =>
        match env.fetch_memberships with
        | Except.error e =>
            (Except.error (PyError.connectionError ("Failed to connect to MongoDB: " ++ e)),
             ⟨true, false⟩)
        | Except.ok ms =>
          match env.fetch_transactions with
          | Except.error e =>
              (Except.error (PyError.connectionError ("Failed to connect to MongoDB: " ++ e)),
               ⟨true, false⟩)
          | Except.ok ts => (Except.ok (cs, ms, ts), ⟨true, true⟩)

/-! ## Top 5 spenders (app.py lines 335-344) -/

/-- Model of the time-window filter on transactions: both interval ends are
inclusive (app.py lines 335-338). -/
def filtered_transactions (transactions : List Transaction) (start_date end_date : Nat) :
    List Transaction :=
  transactions.filter (fun t => decide (start_date ≤ t.date ∧ t.date ≤ end_date))

/-- Distinct group keys in ascending order, as pandas `groupby` (with its
default `sort=True`) produces them. -/
def groupKeys (l : List Int) : List Int :=
  List.insertionSort (· ≤ ·) l.dedup

/-- Model of `groupby('client_id')['amount'].sum()` (app.py line 341). -/
def total_spent (transactions : List Transaction) : List (Int × ℚ) :=
  (groupKeys (transactions.map (fun t => t.client_id))).map
    (fun k => (k, ((transactions.filter (fun t => t.client_id == k)).map
      (fun t => t.amount)).sum))

/-- Row of the top-spenders table. -/
structure SpenderRow where
  client_id : Int
  name : String
  amount : ℚ
deriving DecidableEq, Repr

/-- Model of `pd.merge(total_spent, clients, on='client_id')` (app.py
line 344): inner join of the per-client sums with the client names. -/
def spender_join (transactions : List Transaction) (clients : List Client)
    (start_date end_date : Nat) : List SpenderRow :=
  (total_spent (filtered_transactions transactions start_date end_date)).flatMap
    (fun kv => (clients.filter (fun c => c.client_id == kv.1)).map
      (fun c => ⟨kv.1, c.name, kv.2⟩))

/-- Model of `.nlargest(5, 'amount')`: stable descending sort by amount,
keep the first five rows (app.py line 344). -/
def top_spenders (transactions : List Transaction) (clients : List Client)
    (start_date end_date : Nat) : List SpenderRow :=
  (List.insertionSort (fun a b : SpenderRow => b.amount ≤ a.amount)
    (spender_join transactions clients start_date end_date)).take 5

/-! ## Daily totals and the total-amount metric (app.py lines 68-69, 452-453) -/

/-- Calendar day of an epoch timestamp (`.dt.date` discards the time). -/
def dateOfTimestamp (t : Nat) : Nat :=
  t / 86400

/-- Model of `transactions.groupby(transactions['date'].dt.date)['amount'].sum()`
(app.py line 452): one row per distinct calendar day present in the data,
keys ascending, each with the sum of that day's amounts. -/
def daily_transactions (transactions : List Transaction) : List (Nat × ℚ) :=
  (List.insertionSort (· ≤ ·) ((transactions.map (fun t => dateOfTimestamp t.date)).dedup)).map
    (fun d => (d, ((transactions.filter (fun t => dateOfTimestamp t.date == d)).map
      (fun t => t.amount)).sum))

/-- Model of `transactions['amount'].sum()` (app.py line 68). -/
def total_amount (transactions : List Transaction) : ℚ :=
  (transactions.map (fun t => t.amount)).sum

/-! ## Birthday computation (app.py lines 277-301) -/

/-- Model of `days_until_birthday`: place the birthdate into the current
year (raising, as `Timestamp.replace` does, when the day does not exist
there); if that occurrence is strictly before today move it to next year
(which may also raise); return the day difference to today. -/
def days_until_birthday (birthdate today : Date) : Option Int :=
  match tsReplaceYear birthdate today.year with
  | none => none
  | some nb =>
    if dateLt nb today then
      match tsReplaceYear birthdate (today.year + 1) with
      | none => none
      | some nb2 => some ((rataDie nb2 : Int) - (rataDie today : Int))
    else some ((rataDie nb : Int) - (rataDie today : Int))

/-- Model of `highlight_birthday_today` (app.py lines 294-301): a row is
highlighted exactly when the birthdate moved into the current year equals
today; the `replace` call can raise just as above. -/
def highlight_birthday_today (birthdate today : Date) : Option Bool :=
  (tsReplaceYear birthdate today.year).map (fun b => b == today)

/-- Per-client birthday column (app.py line 288): the `apply` raises as soon
as one row raises, so the whole column is `none` in that case. -/
def birthday_rows (clients : List Client) (today : Date) :
    Option (List (Client × Int)) :=
  clients.mapM (fun c => (days_until_birthday c.birthdate today).map (fun d => (c, d)))

/-- Model of `clients.sort_values(by='days_until_birthday')` (app.py
line 291): stable ascending sort by the computed day count. -/
def upcoming_birthdays (clients : List Client) (today : Date) :
    Option (List (Client × Int)) :=
  (birthday_rows clients today).map
    (List.insertionSort (fun a b : Client × Int => a.2 ≤ b.2))

/-! ## Concrete snapshots used to instantiate the theorems -/

/-- Tiny client table: one client. -/
def exClientsOne : List Client :=
  [⟨1, "Alice", ⟨1990, 3, 15⟩, "France"⟩]

/-- Six distinct clients for the top-spenders example. -/
def exClientsSix : List Client :=
  [⟨1, "A", ⟨1990, 1, 1⟩, "France"⟩,
   ⟨2, "B", ⟨1991, 2, 2⟩, "Spain"⟩,
   ⟨3, "C", ⟨1992, 3, 3⟩, "Italy"⟩,
   ⟨4, "D", ⟨1993, 4, 4⟩, "Chile"⟩,
   ⟨5, "E", ⟨1994, 5, 5⟩, "Japan"⟩,
   ⟨6, "F", ⟨1995, 6, 6⟩, "Kenya"⟩]

/-- One transaction per client with window sums [10, 50, 5, 100, 20, 30]. -/
def exTxnsSix : List Transaction :=
  [⟨101, 1, 10, 1000⟩,
   ⟨102, 2, 50, 2000⟩,
   ⟨103, 3, 5, 3000⟩,
   ⟨104, 4, 100, 4000⟩,
   ⟨105, 5, 20, 5000⟩,
   ⟨106, 6, 30, 6000⟩]

/-- A membership whose status is ACTIVE, for the retention-rate witness. -/
def exMembershipsOne : List Membership :=
  [⟨11, 1, "Gold", "ACTIVE"⟩]

/-- Fuzzy-lookup stub: France resolves, every other query raises. -/
def exFuzzy : String → Except String (List Country) :=
  fun s => if s = "France" then Except.ok [⟨"FRA"⟩] else Except.error "no match"

/-- Loader environment in which everything succeeds. -/
def exEnvOk : LoaderEnv String :=
  ⟨some "mongodb+srv://u:p@cluster/", some "key_task",
   Except.ok (), Except.ok ["c"], Except.ok ["m"], Except.ok ["t"]⟩

/-- Loader environment in which the first fetch fails after the connection
was opened. -/
def exEnvFetchFail : LoaderEnv String :=
  ⟨some "mongodb+srv://u:p@cluster/", some "key_task",
   Except.ok (), Except.error "network timeout", Except.ok [], Except.ok []⟩

/-! ## Theorems -/

/-- C8: for every identifier string made of decimal digits and
thousands-separator commas (with at least one digit), stripping the
separators and converting yields the same result as parsing the
separator-free string directly, namely exactly the integer denoted by the
digit sequence. -/
theorem clientId_normalization_correct (s : List Char)
    (hchars : ∀ c ∈ s, c.isDigit ∨ c = ',')
    (hdigit : ∃ c ∈ s, c.isDigit = true) :
    normalizeClientId s = pyParseInt (s.filter Char.isDigit) ∧
    normalizeClientId s = some ((digitsVal (s.filter Char.isDigit) : Nat) : Int) := by
  have hfe : removeCommas s = s.filter Char.isDigit := by
    unfold removeCommas
    apply List.filter_congr
    intro c hc
    rcases hchars c hc with h | h
    · have hc' : c ≠ ',' := by
        rintro rfl
        exact absurd h (by decide)
      simp [h, hc']
    · subst h
      decide
  have h1 : normalizeClientId s = pyParseInt (s.filter Char.isDigit) := by
    unfold normalizeClientId
    rw [hfe]
  refine ⟨h1, ?_⟩
  rw [h1]
  obtain ⟨c0, hc0, hd0⟩ := hdigit
  have hmem : c0 ∈ s.filter Char.isDigit := List.mem_filter.mpr ⟨hc0, hd0⟩
  rcases hflt : s.filter Char.isDigit with _ | ⟨c, rest⟩
  · rw [hflt] at hmem
    exact absurd hmem (List.not_mem_nil c0)
  · have hcd : c.isDigit = true := by
      have : c ∈ s.filter Char.isDigit := by rw [hflt]; exact List.mem_cons_self c rest
      exact (List.mem_filter.mp this).2
    have hcm : c ≠ '-' := by
      rintro rfl
      exact absurd hcd (by decide)
    have hall : (c :: rest).all Char.isDigit = true := by
      rw [← hflt, List.all_eq_true]
      intro x hx
      exact (List.mem_filter.mp hx).2
    simp only [pyParseInt]
    rw [if_neg hcm]
    unfold pyParseNat
    rw [if_pos ⟨by simp, hall⟩]
    rfl

/-- C8 witness: the normalization applied to "1,234" yields 1234. -/
theorem clientId_normalization_witness :
    normalizeClientId ('1' :: ',' :: '2' :: '3' :: '4' :: []) = some 1234 := by
  have h := clientId_normalization_correct ('1' :: ',' :: '2' :: '3' :: '4' :: [])
    (by decide) (by decide)
  rw [h.2]
  decide

/-- C1: for every snapshot with at least one membership, the retention rate
equals (number of distinct ACTIVE membership ids over the inner join of
clients and memberships) divided by (number of distinct membership ids),
times 100, in exact rational arithmetic. -/
theorem retention_rate_correct (clients : List Client) (memberships : List Membership)
    (h : memberships ≠ []) :
    retention_rate clients memberships =
      some (((((merged_data clients memberships).filter
          (fun p => p.2.status == "ACTIVE")).map (fun p => p.2.membership_id)).toFinset.card : ℚ) /
        ((memberships.map (fun m => m.membership_id)).toFinset.card : ℚ) * 100) := by
  have htot : total_memberships memberships ≠ 0 := by
    unfold total_memberships nunique
    simp only [ne_eq, List.length_eq_zero, List.dedup_eq_nil, List.map_eq_nil_iff]
    exact h
  unfold retention_rate
  rw [if_neg htot]
  rw [List.card_toFinset, List.card_toFinset]
  rfl

/-- C1 witness. -/
theorem retention_rate_correct_witness :
    retention_rate exClientsOne exMembershipsOne = some 100 := by
  have h := retention_rate_correct exClientsOne exMembershipsOne (by decide)
  have h1 : (((merged_data exClientsOne exMembershipsOne).filter
      (fun p => p.2.status == "ACTIVE")).map (fun p => p.2.membership_id)).toFinset.card = 1 := by
    decide
  have h2 : ((exMembershipsOne.map (fun m => m.membership_id)).toFinset.card) = 1 := by
    decide
  rw [h, h1, h2]
  norm_num

/-- C2 counterexample: with zero memberships the retention-rate computation
produces no fallback value; it takes the division-by-zero error path. -/
theorem retention_rate_empty_counterexample :
    retention_rate exClientsOne [] = none := by
  decide

/-- C2 amended: whenever there are zero distinct membership ids, evaluating
the retention-rate computation raises ZeroDivisionError (modelled as
`none`); no fallback value such as 0% is produced. -/
theorem retention_rate_empty_raises (clients : List Client) (memberships : List Membership)
    (h : total_memberships memberships = 0) :
    retention_rate clients memberships = none := by
  unfold retention_rate
  rw [if_pos h]

/-- C2 amended witness. -/
theorem retention_rate_empty_raises_witness :
    retention_rate [] [] = none :=
  retention_rate_empty_raises [] [] (by decide)

/-- C5: the geocoding enrichment is total — it returns an optional value and
never propagates an exception: `none` when the fuzzy lookup raises or finds
no match, and the ISO-3166 alpha-3 code of the first fuzzy match otherwise. -/
theorem get_iso_alpha3_total (search_fuzzy : String → Except String (List Country))
    (country_name : String) :
    (∀ e, search_fuzzy country_name = Except.error e →
      get_iso_alpha3 search_fuzzy country_name = none) ∧
    (search_fuzzy country_name = Except.ok [] →
      get_iso_alpha3 search_fuzzy country_name = none) ∧
    (∀ c cs, search_fuzzy country_name = Except.ok (c :: cs) →
      get_iso_alpha3 search_fuzzy country_name = some c.alpha_3) := by
  refine ⟨fun e he => ?_, fun he => ?_, fun c cs he => ?_⟩ <;>
    (unfold get_iso_alpha3; rw [he])

/-- C5 witness: a resolving and a raising lookup. -/
theorem get_iso_alpha3_total_witness :
    get_iso_alpha3 exFuzzy "France" = some "FRA" ∧
    get_iso_alpha3 exFuzzy "Atlantis" = none := by
  constructor
  · exact (get_iso_alpha3_total exFuzzy "France").2.2 ⟨"FRA"⟩ [] rfl
  · exact (get_iso_alpha3_total exFuzzy "Atlantis").1 "no match" rfl

/-- C4 counterexample: with valid configuration and a successful connect, a
failing collection fetch makes the loader raise with the connection opened
but never closed — the close is skipped on this raising path. -/
theorem loader_leak_counterexample :
    (load_data_from_mongodb exEnvFetchFail).2.openedConn = true ∧
    (load_data_from_mongodb exEnvFetchFail).2.closedConn = false ∧
    (load_data_from_mongodb exEnvFetchFail).1 =
      Except.error (PyError.connectionError
        "Failed to connect to MongoDB: network timeout") :=
  ⟨rfl, rfl, rfl⟩

/-- C4 amended: the connection is closed before return on the successful
path, but on every raising path after the connection is opened — every run
that ends in an error although a connection was opened — the connection is
left open (never closed) and the propagated error is a ConnectionError. -/
theorem loader_connection_paths {Doc : Type} (env : LoaderEnv Doc) :
    ((∃ r, (load_data_from_mongodb env).1 = Except.ok r) →
      (load_data_from_mongodb env).2 = ⟨true, true⟩) ∧
    (∀ e, (load_data_from_mongodb env).1 = Except.error e →
      (load_data_from_mongodb env).2.openedConn = true →
      (load_data_from_mongodb env).2.closedConn = false ∧
        ∃ msg, e = PyError.connectionError msg) := by
  obtain ⟨uri, db, conn, fc, fm, ft⟩ := env
  unfold load_data_from_mongodb
  dsimp only
  split_ifs with h
  · refine ⟨?_, ?_⟩
    · rintro ⟨r, hr⟩
      exact absurd hr (by simp)
    · intro e _ ho
      simp at ho
  · cases conn with
    | error e =>
      refine ⟨?_, ?_⟩
      · rintro ⟨r, hr⟩
        exact absurd hr (by simp)
      · intro e2 _ ho
        simp at ho
    | ok u =>
      cases fc with
      | error e =>
        refine ⟨fun hr => absurd hr.choose_spec (by simp), ?_⟩
        intro e2 he _
        injection he with h1
        exact ⟨rfl, "Failed to connect to MongoDB: " ++ e, h1.symm⟩
      | ok cs =>
        cases fm with
        | error e =>
          refine ⟨fun hr => absurd hr.choose_spec (by simp), ?_⟩
          intro e2 he _
          injection he with h1
          exact ⟨rfl, "Failed to connect to MongoDB: " ++ e, h1.symm⟩
        | ok ms =>
          cases ft with
          | error e =>
            refine ⟨fun hr => absurd hr.choose_spec (by simp), ?_⟩
            intro e2 he _
            injection he with h1
            exact ⟨rfl, "Failed to connect to MongoDB: " ++ e, h1.symm⟩
          | ok ts =>
            refine ⟨fun _ => rfl, ?_⟩
            intro e2 he _
            exact absurd he (by simp)

/-- C4 amended witness: a fully successful run opens and closes the
connection, while a run whose first fetch fails after opening ends with the
connection still open and never closed. -/
theorem loader_connection_paths_witness :
    (load_data_from_mongodb exEnvFetchFail).2.openedConn = true ∧
    (load_data_from_mongodb exEnvFetchFail).2.closedConn = false ∧
    (load_data_from_mongodb exEnvOk).2 = ⟨true, true⟩ := by
  refine ⟨rfl, ?_, (loader_connection_paths exEnvOk).1 ⟨(["c"], ["m"], ["t"]), rfl⟩⟩
  exact ((loader_connection_paths exEnvFetchFail).2
    (PyError.connectionError "Failed to connect to MongoDB: network timeout") rfl rfl).1

/-- C3 counterexample: a computed age of exactly 0 (a client younger than
one year old) is non-negative yet assigned to no bin, because the cut with
edges [0, 18, ...] and the default right-closed intervals excludes the left
edge 0 — the first bin is (0, 18], not [0, 18]. -/
theorem age_bin_counterexample :
    clientAge 100 = 0 ∧ (0 : ℚ) ≤ clientAge 100 ∧ pdCutAge (clientAge 100) = none := by
  have h : clientAge 100 = 0 := by
    unfold clientAge
    norm_num
  refine ⟨h, by rw [h], by rw [h]; rfl⟩

/-- C3 amended: the seven bins are the half-open intervals (0,18], (18,25],
(25,35], (35,45], (45,55], (55,65], (65,100]: every age in (0, 100] is
assigned to exactly one bin, the assignment agrees with the interval
characterization, and the bin axis order is the fixed label list regardless
of the data; the left edge 0 itself (and anything outside (0, 100]) is
assigned to no bin. -/
theorem age_bin_amended (a : ℚ) (h0 : 0 < a) (h100 : a ≤ 100) :
    (∃ i : Fin 7, pdCutAge a = some i ∧ binLo i < a ∧ a ≤ binHi i) ∧
    (∀ i j : Fin 7, binLo i < a → a ≤ binHi i → binLo j < a → a ≤ binHi j → i = j) ∧
    ageLabels = ["0-18", "19-25", "26-35", "36-45", "46-55", "56-65", "65+"] := by
  refine ⟨?_, ?_, rfl⟩
  · unfold pdCutAge
    split_ifs with h1 h2 h3 h4 h5 h6 h7
    · exact ⟨0, rfl, h1.1, h1.2⟩
    · exact ⟨1, rfl, h2.1, h2.2⟩
    · exact ⟨2, rfl, h3.1, h3.2⟩
    · exact ⟨3, rfl, h4.1, h4.2⟩
    · exact ⟨4, rfl, h5.1, h5.2⟩
    · exact ⟨5, rfl, h6.1, h6.2⟩
    · exact ⟨6, rfl, h7.1, h7.2⟩
    · exfalso
      push_neg at h1 h2 h3 h4 h5 h6 h7
      have k1 := h1 h0
      have k2 := h2 k1
      have k3 := h3 k2
      have k4 := h4 k3
      have k5 := h5 k4
      have k6 := h6 k5
      have k7 := h7 k6
      linarith
  · intro i j hi1 hi2 hj1 hj2
    fin_cases i <;> fin_cases j <;> simp_all [binLo, binHi] <;> linarith

/-- C3 amended witness: age 30 falls in exactly the bin (25, 35]. -/
theorem age_bin_amended_witness :
    ∃ i : Fin 7, pdCutAge 30 = some i ∧ binLo i < 30 ∧ (30 : ℚ) ≤ binHi i :=
  (age_bin_amended 30 (by norm_num) (by norm_num)).1

/-- Helper: summing a function over the fibers of a key function, one fiber
per key of a duplicate-free covering key list, yields the total sum. -/
theorem sum_fiberwise_eq {α : Type} (key : α → Nat) (f : α → ℚ) :
    ∀ (ks : List Nat) (l : List α), ks.Nodup → (∀ a ∈ l, key a ∈ ks) →
      (ks.map (fun k => ((l.filter (fun a => key a == k)).map f).sum)).sum =
        (l.map f).sum := by
  intro ks
  induction ks with
  | nil =>
    intro l _ hcov
    have hl : l = [] := by
      cases l with
      | nil => rfl
      | cons a t => exact absurd (hcov a (List.mem_cons_self a t)) (List.not_mem_nil _)
    subst hl
    simp
  | cons k ks ih =>
    intro l hnd hcov
    have hknotin : k ∉ ks := (List.nodup_cons.mp hnd).1
    have hndks : ks.Nodup := (List.nodup_cons.mp hnd).2
    have hsplit :
        (l.map f).sum =
          ((l.filter (fun a => key a == k)).map f).sum +
            ((l.filter (fun a => !(key a == k))).map f).sum := by
      have hp := (List.filter_append_perm (fun a => key a == k) l).map f
      rw [← hp.sum_eq, List.map_append, List.sum_append]
    have htail :
        (ks.map (fun k2 => ((l.filter (fun a => key a == k2)).map f).sum)).sum =
          ((l.filter (fun a => !(key a == k))).map f).sum := by
      have hcong :
          ks.map (fun k2 => ((l.filter (fun a => key a == k2)).map f).sum) =
            ks.map (fun k2 =>
              (((l.filter (fun a => !(key a == k))).filter (fun a => key a == k2)).map f).sum) := by
        apply List.map_congr_left
        intro k2 hk2
        have hk2ne : k2 ≠ k := by
          rintro rfl
          exact hknotin hk2
        have hff :
            (l.filter (fun a => !(key a == k))).filter (fun a => key a == k2) =
              l.filter (fun a => key a == k2) := by
          rw [List.filter_filter]
          apply List.filter_congr
          intro a _
          cases hq : (key a == k2) with
          | false => simp
          | true =>
            have : key a = k2 := by simpa using hq
            subst this
            simp [hk2ne]
        rw [hff]
      rw [hcong]
      exact ih (l.filter (fun a => !(key a == k))) hndks (by
        intro a ha
        have hal : a ∈ l := List.mem_of_mem_filter ha
        have hne : ¬(key a == k) = true := by
          have := List.of_mem_filter ha
          simpa using this
        rcases List.mem_cons.mp (hcov a hal) with h | h
        · exact absurd (by simpa using h) hne
        · exact h)
    rw [List.map_cons, List.sum_cons, htail, hsplit]

/-- C7: the top-spenders table sums window transactions per client, joins
names back, and keeps the five rows of greatest summed amount: the result
is sorted descending by amount, has length min 5 (number of joined rows),
and every kept row's amount dominates every dropped row's amount; in
particular, six clients with window sums [10, 50, 5, 100, 20, 30] yield the
five rows [100, 50, 30, 20, 10] in descending order, excluding the 5. -/
theorem top_spenders_correct :
    (∀ (transactions : List Transaction) (clients : List Client) (s e : Nat),
      List.Pairwise (fun a b : SpenderRow => b.amount ≤ a.amount)
        (top_spenders transactions clients s e) ∧
      (top_spenders transactions clients s e).length =
        min 5 (spender_join transactions clients s e).length ∧
      ∃ rest, List.Perm (top_spenders transactions clients s e ++ rest)
          (spender_join transactions clients s e) ∧
        ∀ x ∈ top_spenders transactions clients s e, ∀ y ∈ rest,
          y.amount ≤ x.amount) ∧
    top_spenders exTxnsSix exClientsSix 0 100000 =
      [⟨4, "D", 100⟩, ⟨2, "B", 50⟩, ⟨6, "F", 30⟩, ⟨5, "E", 20⟩, ⟨1, "A", 10⟩] := by
  constructor
  · intro transactions clients s e
    haveI : IsTotal SpenderRow (fun a b => b.amount ≤ a.amount) :=
      ⟨fun a b => le_total b.amount a.amount⟩
    haveI : IsTrans SpenderRow (fun a b => b.amount ≤ a.amount) :=
      ⟨fun a b c hab hbc => le_trans hbc hab⟩
    have hsorted := List.sorted_insertionSort (fun a b : SpenderRow => b.amount ≤ a.amount)
      (spender_join transactions clients s e)
    refine ⟨?_, ?_, ?_⟩
    · unfold top_spenders
      exact List.Pairwise.sublist (List.take_sublist 5 _) hsorted
    · unfold top_spenders
      rw [List.length_take, (List.perm_insertionSort _ _).length_eq]
    · refine ⟨(List.insertionSort (fun a b : SpenderRow => b.amount ≤ a.amount)
        (spender_join transactions clients s e)).drop 5, ?_, ?_⟩
      · unfold top_spenders
        rw [List.take_append_drop]
        exact List.perm_insertionSort _ _
      · intro x hx y hy
        exact List.Sorted.rel_of_mem_take_of_mem_drop hsorted hx hy
  · norm_num [top_spenders, spender_join, total_spent, groupKeys, filtered_transactions,
      exTxnsSix, exClientsSix, dateOfTimestamp, List.insertionSort, List.orderedInsert]

/-- C7 witness: the general part applied to the six-client snapshot. -/
theorem top_spenders_correct_witness :
    List.Pairwise (fun a b : SpenderRow => b.amount ≤ a.amount)
      (top_spenders exTxnsSix exClientsSix 0 100000) :=
  (top_spenders_correct.1 exTxnsSix exClientsSix 0 100000).1

/-- C9: the daily-total aggregation is invariant under permutation of the
input rows (it produces the very same table), its dates are free of
duplicates, and a date appears in the table exactly when some transaction
falls on it — no zero row is fabricated for an absent date. -/
theorem daily_transactions_perm_invariant (l l2 : List Transaction)
    (h : List.Perm l l2) :
    daily_transactions l = daily_transactions l2 ∧
    ((daily_transactions l).map Prod.fst).Nodup ∧
    (∀ d : Nat, (∃ q, (d, q) ∈ daily_transactions l) ↔
      ∃ t ∈ l, dateOfTimestamp t.date = d) := by
  have hkeysperm :
      List.Perm (List.insertionSort (· ≤ ·) ((l.map (fun t => dateOfTimestamp t.date)).dedup))
        (List.insertionSort (· ≤ ·) ((l2.map (fun t => dateOfTimestamp t.date)).dedup)) :=
    (List.perm_insertionSort _ _).trans
      (((h.map (fun t => dateOfTimestamp t.date)).dedup).trans
        (List.perm_insertionSort _ _).symm)
  have hkeys :
      List.insertionSort (· ≤ ·) ((l.map (fun t => dateOfTimestamp t.date)).dedup) =
        List.insertionSort (· ≤ ·) ((l2.map (fun t => dateOfTimestamp t.date)).dedup) :=
    List.eq_of_perm_of_sorted hkeysperm
      (List.sorted_insertionSort _ _) (List.sorted_insertionSort _ _)
  have hkeysmap : (daily_transactions l).map Prod.fst =
      List.insertionSort (· ≤ ·) ((l.map (fun t => dateOfTimestamp t.date)).dedup) := by
    unfold daily_transactions
    rw [List.map_map]
    exact List.map_id' _
  refine ⟨?_, ?_, ?_⟩
  · unfold daily_transactions
    rw [hkeys]
    apply List.map_congr_left
    intro d _
    have hfil := (h.filter (fun t => dateOfTimestamp t.date == d)).map
      (fun t => t.amount)
    rw [hfil.sum_eq]
  · rw [hkeysmap]
    exact ((List.perm_insertionSort _ _).nodup_iff).mpr ((l.map _).nodup_dedup)
  · intro d
    constructor
    · rintro ⟨q, hq⟩
      have hd : d ∈ (daily_transactions l).map Prod.fst :=
        List.mem_map.mpr ⟨(d, q), hq, rfl⟩
      rw [hkeysmap, (List.perm_insertionSort _ _).mem_iff, List.mem_dedup] at hd
      obtain ⟨t, ht, hdt⟩ := List.mem_map.mp hd
      exact ⟨t, ht, hdt⟩
    · rintro ⟨t, ht, hdt⟩
      have hd : d ∈ List.insertionSort (· ≤ ·)
          ((l.map (fun t => dateOfTimestamp t.date)).dedup) := by
        rw [(List.perm_insertionSort _ _).mem_iff, List.mem_dedup]
        exact List.mem_map.mpr ⟨t, ht, hdt⟩
      refine ⟨((l.filter (fun t => dateOfTimestamp t.date == d)).map
        (fun t => t.amount)).sum, ?_⟩
      unfold daily_transactions
      exact List.mem_map.mpr ⟨d, hd, rfl⟩

/-- C9 witness: swapping two rows leaves the daily table unchanged. -/
theorem daily_transactions_perm_invariant_witness :
    daily_transactions [⟨1, 1, 5, 86400⟩, ⟨2, 1, 7, 2⟩] =
      daily_transactions [⟨2, 1, 7, 2⟩, ⟨1, 1, 5, 86400⟩] :=
  (daily_transactions_perm_invariant _ _
    (List.Perm.swap ⟨2, 1, 7, 2⟩ ⟨1, 1, 5, 86400⟩ [])).1

/-- C10: the per-day totals sum to the Total Transaction Amount metric —
grouping by calendar date is a sum-preserving partition of the rows. -/
theorem daily_total_preserves_sum (l : List Transaction) :
    ((daily_transactions l).map Prod.snd).sum = total_amount l := by
  unfold daily_transactions total_amount
  rw [List.map_map]
  have hnd : (List.insertionSort (· ≤ ·)
      ((l.map (fun t => dateOfTimestamp t.date)).dedup)).Nodup :=
    ((List.perm_insertionSort _ _).nodup_iff).mpr ((l.map _).nodup_dedup)
  have hcov : ∀ t ∈ l, dateOfTimestamp t.date ∈
      List.insertionSort (· ≤ ·) ((l.map (fun t => dateOfTimestamp t.date)).dedup) := by
    intro t ht
    rw [(List.perm_insertionSort _ _).mem_iff, List.mem_dedup]
    exact List.mem_map.mpr ⟨t, ht, rfl⟩
  exact sum_fiberwise_eq (fun t => dateOfTimestamp t.date) (fun t => t.amount) _ l hnd hcov

/-- Helper: counting leap years up to `y` steps by one exactly at leap
years. -/
theorem leaps_step (y : Nat) (hy : 1 ≤ y) :
    leapsUpTo y = leapsUpTo (y - 1) + (if isLeap y = true then 1 else 0) := by
  unfold leapsUpTo isLeap
  simp only [Bool.or_eq_true, Bool.and_eq_true, beq_iff_eq, bne_iff_ne, ne_eq]
  split_ifs with h
  · omega
  · omega

/-- Helper: the leap-year count is monotone. -/
theorem leapsUpTo_mono {y z : Nat} (h : y ≤ z) : leapsUpTo y ≤ leapsUpTo z := by
  induction z, h using Nat.le_induction with
  | base => exact le_refl _
  | succ n hn ih =>
    have hstep := leaps_step (n + 1) (by omega)
    have hn1 : n + 1 - 1 = n := by omega
    rw [hn1] at hstep
    split_ifs at hstep <;> omega

/-- Helper: cumulative month-day counts (with leap adjustment) step by the
length of the month. -/
theorem monthStep (y m : Nat) (h1 : 1 ≤ m) (h2 : m ≤ 12) :
    monthDaysBefore (m + 1) + leapAdj (m + 1) y =
      monthDaysBefore m + leapAdj m y + daysInMonth y m := by
  interval_cases m <;> cases h : isLeap y <;>
    simp [monthDaysBefore, leapAdj, daysInMonth, h]

/-- Helper: cumulative month-day counts (with leap adjustment) are monotone
in the month. -/
theorem monthCumMono (y m1 m2 : Nat) (h1 : 1 ≤ m1) (hle : m1 ≤ m2) (h13 : m2 ≤ 13) :
    monthDaysBefore m1 + leapAdj m1 y ≤ monthDaysBefore m2 + leapAdj m2 y := by
  revert h13
  induction m2, hle using Nat.le_induction with
  | base => exact fun _ => le_refl _
  | succ n hn ih =>
    intro h13
    have hstep := monthStep y n (by omega) (by omega)
    have hin := ih (by omega)
    omega

/-- Helper: the day-of-year ordinal of a valid date is at most the year
length. -/
theorem dayOfYear_le (d : Date) (hv : d.Valid) :
    dayOfYear d ≤ 365 + (if isLeap d.year = true then 1 else 0) := by
  obtain ⟨hy, hm1, hm2, hd1, hd2⟩ := hv
  have hstep := monthStep d.year d.month hm1 hm2
  have hmono := monthCumMono d.year (d.month + 1) 13 (by omega) (by omega) (by omega)
  have h13 : monthDaysBefore 13 = 365 := rfl
  have hadj13 : leapAdj 13 d.year = (if isLeap d.year = true then 1 else 0) := by
    unfold leapAdj
    norm_num
  rw [h13, hadj13] at hmono
  unfold dayOfYear
  split_ifs at hmono ⊢ <;> omega

/-- Helper: the rata-die day number is strictly monotone on valid dates. -/
theorem rataDie_lt_of_dateLt (a b : Date) (ha : a.Valid) (hb : b.Valid)
    (h : dateLt a b) : rataDie a < rataDie b := by
  obtain ⟨ha1, ha2, ha3, ha4, ha5⟩ := ha
  obtain ⟨hb1, hb2, hb3, hb4, hb5⟩ := hb
  unfold dateLt at h
  unfold rataDie dayOfYear
  rcases h with hy | ⟨hyeq, hrest⟩
  · have hbd := dayOfYear_le a ⟨ha1, ha2, ha3, ha4, ha5⟩
    unfold dayOfYear at hbd
    have hls := leaps_step a.year ha1
    have hlm : leapsUpTo a.year ≤ leapsUpTo (b.year - 1) := leapsUpTo_mono (by omega)
    split_ifs at hbd hls <;> omega
  · rcases hrest with hm | ⟨hmeq, hd⟩
    · have hstep := monthStep a.year a.month ha2 ha3
      have hmono := monthCumMono a.year (a.month + 1) b.month (by omega) (by omega)
        (by omega)
      rw [← hyeq]
      omega
    · rw [← hyeq, ← hmeq]
      omega

/-- Helper: the rata-die day number is monotone on valid dates. -/
theorem rataDie_le_of_dateLe (a b : Date) (ha : a.Valid) (hb : b.Valid)
    (h : dateLe a b) : rataDie a ≤ rataDie b := by
  unfold dateLe at h
  rcases h with hy | ⟨hyeq, hm | ⟨hmeq, hd⟩⟩
  · exact le_of_lt (rataDie_lt_of_dateLt a b ha hb (by unfold dateLt; exact Or.inl hy))
  · exact le_of_lt (rataDie_lt_of_dateLt a b ha hb
      (by unfold dateLt; exact Or.inr ⟨hyeq, Or.inl hm⟩))
  · unfold rataDie dayOfYear
    rw [← hyeq, ← hmeq]
    omega

/-- Helper: the rata-die day number of the successor day is one more. -/
theorem rataDie_dateSucc (t : Date) (hv : t.Valid) :
    rataDie (dateSucc t) = rataDie t + 1 := by
  obtain ⟨h1, h2, h3, h4, h5⟩ := hv
  unfold dateSucc
  split_ifs with hd hm
  · unfold rataDie dayOfYear
    dsimp only
    omega
  · have hstep := monthStep t.year t.month h2 h3
    unfold rataDie dayOfYear
    dsimp only
    omega
  · have hm12 : t.month = 12 := by omega
    have hdim : daysInMonth t.year 12 = 31 := rfl
    rw [hm12] at h5 hd
    rw [hdim] at h5 hd
    have hls := leaps_step t.year h1
    unfold rataDie dayOfYear
    dsimp only
    simp only [Nat.add_sub_cancel]
    rw [hm12]
    have hc1 : monthDaysBefore 1 = 0 := rfl
    have hc12 : monthDaysBefore 12 = 334 := rfl
    have ha1 : leapAdj 1 (t.year + 1) = 0 := by
      unfold leapAdj
      norm_num
    have ha12 : leapAdj 12 t.year = (if isLeap t.year = true then 1 else 0) := by
      unfold leapAdj
      norm_num
    rw [hc1, hc12, ha1, ha12]
    split_ifs at hls ⊢ <;> omega

/-- Helper: moving a valid non-February-29 (month, day) pair one year
forward advances the rata-die number by 365 plus the leap bit of whichever
year contains the intervening February. -/
theorem rataDie_year_step (y m d : Nat) (hv : Date.Valid ⟨y, m, d⟩) :
    rataDie ⟨y + 1, m, d⟩ = rataDie ⟨y, m, d⟩ + 365 +
      (if 3 ≤ m then (if isLeap (y + 1) = true then 1 else 0)
        else (if isLeap y = true then 1 else 0)) := by
  obtain ⟨h1, h2, h3, h4, h5⟩ := hv
  have hls := leaps_step y h1
  unfold rataDie dayOfYear leapAdj
  dsimp only
  simp only [Nat.add_sub_cancel]
  cases hL1 : isLeap y <;> cases hL2 : isLeap (y + 1) <;>
    simp only [hL1, hL2] at hls ⊢ <;> split_ifs at hls ⊢ <;> simp_all <;> omega

/-- Helper: month lengths agree across years away from February. -/
theorem daysInMonth_stable (y y2 m : Nat) (hm : m ≠ 2) :
    daysInMonth y m = daysInMonth y2 m := by
  unfold daysInMonth
  rw [if_neg hm, if_neg hm]

/-- Helper: a valid (month, day) pair other than February 29 is a valid
date of every year. -/
theorem valid_any_year (b : Date) (hb : b.Valid)
    (hfeb : ¬(b.month = 2 ∧ b.day = 29)) (y : Nat) (hy : 1 ≤ y) :
    Date.Valid ⟨y, b.month, b.day⟩ := by
  obtain ⟨h1, h2, h3, h4, h5⟩ := hb
  refine ⟨hy, h2, h3, h4, ?_⟩
  show b.day ≤ daysInMonth y b.month
  by_cases hm : b.month = 2
  · have hub : daysInMonth b.year 2 ≤ 29 := by
      unfold daysInMonth
      split_ifs <;> omega
    have hlb : 28 ≤ daysInMonth y 2 := by
      unfold daysInMonth
      split_ifs <;> omega
    have hd29 : b.day ≠ 29 := fun hd => hfeb ⟨hm, hd⟩
    rw [hm] at h5 ⊢
    omega
  · rw [daysInMonth_stable y b.year b.month hm]
    exact h5

/-- Helper: `Timestamp.replace(year=y)` succeeds exactly on in-range days. -/
theorem tsReplaceYear_eq (b : Date) (y : Nat)
    (h : 1 ≤ b.day ∧ b.day ≤ daysInMonth y b.month) :
    tsReplaceYear b y = some ⟨y, b.month, b.day⟩ := by
  unfold tsReplaceYear
  rw [if_pos h]

/-- C6 counterexample: for a client born on February 29, evaluated on a
date whose year is not a leap year, the computation raises ValueError
(`Timestamp.replace` rejects Feb 29 of 2025) instead of yielding a day
count, and the birthday table computation raises with it — although both
the birthdate and the current date are valid calendar dates. -/
theorem birthday_feb29_counterexample :
    Date.Valid ⟨2000, 2, 29⟩ ∧ Date.Valid ⟨2025, 1, 15⟩ ∧
    days_until_birthday ⟨2000, 2, 29⟩ ⟨2025, 1, 15⟩ = none ∧
    upcoming_birthdays [⟨7, "Leap", ⟨2000, 2, 29⟩, "Ireland"⟩] ⟨2025, 1, 15⟩ = none := by
  refine ⟨by decide, by decide, rfl, rfl⟩

/-- C6 amended: for every client whose birthdate is not February 29 and
every valid current date, the computation yields the exact number of days
to the next occurrence of the birthdate's month/day on or after today
(the minimal such valid date), which is 0 exactly on the birthday itself —
the day on which the row is highlighted; evaluated the day after a
birthday occurrence it yields 364 plus the leap bit of the year containing
the intervening February (so 364 or 365); and the birthday table, whenever
it is produced, is sorted ascending by the day count. For February 29
birthdates the computation can instead raise (see the counterexample). -/
theorem birthday_computation_amended :
    (∀ (birthdate today : Date), today.Valid → birthdate.Valid →
      ¬(birthdate.month = 2 ∧ birthdate.day = 29) →
      ∃ d : Int, days_until_birthday birthdate today = some d ∧ 0 ≤ d ∧
        (∃ nb : Date, nb.Valid ∧ nb.month = birthdate.month ∧ nb.day = birthdate.day ∧
          dateLe today nb ∧ d = (rataDie nb : Int) - (rataDie today : Int) ∧
          (∀ t : Date, t.Valid → dateLe today t → t.month = birthdate.month →
            t.day = birthdate.day → dateLe nb t)) ∧
        (d = 0 ↔ (birthdate.month = today.month ∧ birthdate.day = today.day)) ∧
        (highlight_birthday_today birthdate today = some true ↔
          (birthdate.month = today.month ∧ birthdate.day = today.day))) ∧
    (∀ (y : Nat) (birthdate : Date), 1 ≤ y → birthdate.Valid →
      ¬(birthdate.month = 2 ∧ birthdate.day = 29) →
      days_until_birthday birthdate (dateSucc ⟨y, birthdate.month, birthdate.day⟩) =
        some (364 + (if 3 ≤ birthdate.month then (if isLeap (y + 1) = true then 1 else 0)
          else (if isLeap y = true then 1 else 0)))) ∧
    (∀ (clients : List Client) (today : Date) (rows : List (Client × Int)),
      upcoming_birthdays clients today = some rows →
      List.Pairwise (fun a b : Client × Int => a.2 ≤ b.2) rows) := by
  refine ⟨?_, ?_, ?_⟩
  · -- main part
    intro b today htv hbv hfeb
    obtain ⟨byr, bm, bd⟩ := b
    obtain ⟨tyr, tm, td⟩ := today
    unfold Date.Valid at htv hbv
    dsimp only at htv hbv hfeb ⊢
    obtain ⟨ht1, ht2, ht3, ht4, ht5⟩ := htv
    obtain ⟨hb1, hb2, hb3, hb4, hb5⟩ := hbv
    have hbv2 : Date.Valid ⟨byr, bm, bd⟩ := ⟨hb1, hb2, hb3, hb4, hb5⟩
    have htv2 : Date.Valid ⟨tyr, tm, td⟩ := ⟨ht1, ht2, ht3, ht4, ht5⟩
    have hnb1v : Date.Valid ⟨tyr, bm, bd⟩ :=
      valid_any_year ⟨byr, bm, bd⟩ hbv2 hfeb tyr ht1
    have hnb2v : Date.Valid ⟨tyr + 1, bm, bd⟩ :=
      valid_any_year ⟨byr, bm, bd⟩ hbv2 hfeb (tyr + 1) (by omega)
    have hrep1 : tsReplaceYear ⟨byr, bm, bd⟩ tyr = some ⟨tyr, bm, bd⟩ :=
      tsReplaceYear_eq _ _ ⟨hb4, hnb1v.2.2.2.2⟩
    have hrep2 : tsReplaceYear ⟨byr, bm, bd⟩ (tyr + 1) = some ⟨tyr + 1, bm, bd⟩ :=
      tsReplaceYear_eq _ _ ⟨hb4, hnb2v.2.2.2.2⟩
    have hflag : (highlight_birthday_today ⟨byr, bm, bd⟩ ⟨tyr, tm, td⟩ = some true ↔
        (bm = tm ∧ bd = td)) := by
      unfold highlight_birthday_today
      dsimp only
      rw [hrep1]
      simp [beq_iff_eq, Date.mk.injEq]
    unfold days_until_birthday
    dsimp only
    rw [hrep1]
    dsimp only
    by_cases hlt : dateLt ⟨tyr, bm, bd⟩ ⟨tyr, tm, td⟩
    · rw [if_pos hlt, hrep2]
      dsimp only
      refine ⟨_, rfl, ?_, ?_, ?_, hflag⟩
      · have hle : rataDie ⟨tyr, tm, td⟩ ≤ rataDie ⟨tyr + 1, bm, bd⟩ :=
          rataDie_le_of_dateLe _ _ htv2 hnb2v (by unfold dateLe; dsimp only; omega)
        omega
      · refine ⟨⟨tyr + 1, bm, bd⟩, hnb2v, rfl, rfl, ?_, rfl, ?_⟩
        · unfold dateLe; dsimp only; omega
        · intro t htv3 hlet hmt hdt
          obtain ⟨t1, t2, t3⟩ := t
          dsimp only at hmt hdt
          subst hmt
          subst hdt
          unfold dateLt at hlt
          unfold dateLe at hlet ⊢
          dsimp only at hlt hlet ⊢
          omega
      · have hstrict : rataDie ⟨tyr, tm, td⟩ < rataDie ⟨tyr + 1, bm, bd⟩ :=
          rataDie_lt_of_dateLt _ _ htv2 hnb2v (by unfold dateLt; dsimp only; omega)
        constructor
        · intro h0
          exfalso
          omega
        · rintro ⟨hm, hd⟩
          subst hm
          subst hd
          unfold dateLt at hlt
          dsimp only at hlt
          omega
    · rw [if_neg hlt]
      have hletoday : dateLe ⟨tyr, tm, td⟩ ⟨tyr, bm, bd⟩ := by
        unfold dateLt at hlt
        unfold dateLe
        dsimp only at hlt ⊢
        omega
      refine ⟨_, rfl, ?_, ?_, ?_, hflag⟩
      · have hle : rataDie ⟨tyr, tm, td⟩ ≤ rataDie ⟨tyr, bm, bd⟩ :=
          rataDie_le_of_dateLe _ _ htv2 hnb1v hletoday
        omega
      · refine ⟨⟨tyr, bm, bd⟩, hnb1v, rfl, rfl, hletoday, rfl, ?_⟩
        intro t htv3 hlet hmt hdt
        obtain ⟨t1, t2, t3⟩ := t
        dsimp only at hmt hdt
        subst hmt
        subst hdt
        unfold dateLe at hlet ⊢
        dsimp only at hlet ⊢
        omega
      · by_cases hmd : bm = tm ∧ bd = td
        · obtain ⟨hm, hd⟩ := hmd
          subst hm
          subst hd
          exact ⟨fun _ => ⟨rfl, rfl⟩, fun _ => by omega⟩
        · have hstrict : rataDie ⟨tyr, tm, td⟩ < rataDie ⟨tyr, bm, bd⟩ :=
            rataDie_lt_of_dateLt _ _ htv2 hnb1v (by
              unfold dateLe at hletoday
              unfold dateLt
              dsimp only at hletoday ⊢
              omega)
          exact ⟨fun h0 => absurd h0 (by omega), fun hc => absurd hc hmd⟩
  · -- day-after part
    intro y b hy hbv hfeb
    obtain ⟨byr, bm, bd⟩ := b
    unfold Date.Valid at hbv
    dsimp only at hbv hfeb ⊢
    obtain ⟨hb1, hb2, hb3, hb4, hb5⟩ := hbv
    have hbv2 : Date.Valid ⟨byr, bm, bd⟩ := ⟨hb1, hb2, hb3, hb4, hb5⟩
    have hoccv : Date.Valid ⟨y, bm, bd⟩ := valid_any_year ⟨byr, bm, bd⟩ hbv2 hfeb y hy
    have hnextv : Date.Valid ⟨y + 1, bm, bd⟩ :=
      valid_any_year ⟨byr, bm, bd⟩ hbv2 hfeb (y + 1) (by omega)
    have hyearstep := rataDie_year_step y bm bd hoccv
    have hsucc := rataDie_dateSucc ⟨y, bm, bd⟩ hoccv
    have hrep1y : tsReplaceYear ⟨byr, bm, bd⟩ y = some ⟨y, bm, bd⟩ :=
      tsReplaceYear_eq _ _ ⟨hb4, hoccv.2.2.2.2⟩
    have hrep2y : tsReplaceYear ⟨byr, bm, bd⟩ (y + 1) = some ⟨y + 1, bm, bd⟩ :=
      tsReplaceYear_eq _ _ ⟨hb4, hnextv.2.2.2.2⟩
    by_cases hdd : bd < daysInMonth y bm
    · have htoday : dateSucc ⟨y, bm, bd⟩ = ⟨y, bm, bd + 1⟩ := by
        unfold dateSucc
        rw [if_pos hdd]
      rw [htoday] at hsucc ⊢
      unfold days_until_birthday
      dsimp only
      rw [hrep1y]
      dsimp only
      rw [if_pos (show dateLt ⟨y, bm, bd⟩ ⟨y, bm, bd + 1⟩ by
        unfold dateLt; dsimp only; omega)]
      rw [hrep2y]
      dsimp only
      congr 1
      split_ifs at hyearstep ⊢ <;> omega
    · by_cases hmm : bm < 12
      · have htoday : dateSucc ⟨y, bm, bd⟩ = ⟨y, bm + 1, 1⟩ := by
          unfold dateSucc
          rw [if_neg hdd, if_pos hmm]
        rw [htoday] at hsucc ⊢
        unfold days_until_birthday
        dsimp only
        rw [hrep1y]
        dsimp only
        rw [if_pos (show dateLt ⟨y, bm, bd⟩ ⟨y, bm + 1, 1⟩ by
          unfold dateLt; dsimp only; omega)]
        rw [hrep2y]
        dsimp only
        congr 1
        split_ifs at hyearstep ⊢ <;> omega
      · have hm12 : bm = 12 := by omega
        subst hm12
        have htoday : dateSucc ⟨y, 12, bd⟩ = ⟨y + 1, 1, 1⟩ := by
          unfold dateSucc
          rw [if_neg hdd, if_neg hmm]
        rw [htoday] at hsucc ⊢
        unfold days_until_birthday
        dsimp only
        rw [hrep2y]
        dsimp only
        rw [if_neg (show ¬dateLt ⟨y + 1, 12, bd⟩ ⟨y + 1, 1, 1⟩ by
          unfold dateLt; dsimp only; omega)]
        congr 1
        split_ifs at hyearstep ⊢ <;> omega
  · -- sortedness of the table
    intro clients today rows h
    unfold upcoming_birthdays at h
    cases hb : birthday_rows clients today with
    | none =>
      rw [hb] at h
      exact absurd h (by simp)
    | some l =>
      rw [hb] at h
      simp only [Option.map_some'] at h
      haveI : IsTotal (Client × Int) (fun a b : Client × Int => a.2 ≤ b.2) :=
        ⟨fun a b => le_total a.2 b.2⟩
      haveI : IsTrans (Client × Int) (fun a b : Client × Int => a.2 ≤ b.2) :=
        ⟨fun a b c h1 h2 => le_trans h1 h2⟩
      rw [← Option.some.inj h]
      exact List.sorted_insertionSort _ l

/-- C6 amended witness: born March 15, evaluated on March 15, the count is
zero. -/
theorem birthday_computation_amended_witness :
    days_until_birthday ⟨1990, 3, 15⟩ ⟨2025, 3, 15⟩ = some 0 := by
  obtain ⟨d, hd, hnn, hex, hiff, hfl⟩ :=
    birthday_computation_amended.1 ⟨1990, 3, 15⟩ ⟨2025, 3, 15⟩
      (by decide) (by decide) (by decide)
  have h0 : d = 0 := hiff.mpr ⟨rfl, rfl⟩
  rw [h0] at hd
  exact hd

end Dashboard
